
import Mathlib

/-!
# FinAssist — verification of spec claims against a shallow embedding

Shallow embedding of the FinAssist repository (Flask app `app.py`, agents
under `agents/`).  Each Python function relevant to the frozen claims is
translated into an executable Lean definition; theorems about those
definitions settle the claims.

Modelling conventions:
* `datetime.datetime` values become `PyDateTime` records ordered
  lexicographically on (year, month, day, hour, minute, second, micro).
  The year range 1..9999 of Python datetimes is idealized to unbounded naturals.
* Timestamps used by the rate limiter / insight windows are naturals
  counting seconds.
* Python `float` arithmetic is modelled over `ℚ`; `round` is modelled as
  round-half-to-even (the Python semantics on exact values).  Statements
  about amounts are confined to regimes where IEEE doubles are exact.
* Database sessions become explicit lists of rows; a commit that may fail
  is modelled by a boolean `commitOk` parameter.
-/

namespace FinAssist

/-- Model of Python `datetime.datetime` (year, month, day, hour, minute,
second, microsecond), with the year range idealized to all of `ℕ`. -/
structure PyDateTime where
  year : Nat
  month : Nat
  day : Nat
  hour : Nat := 0
  minute : Nat := 0
  second : Nat := 0
  micro : Nat := 0
  deriving Repr, DecidableEq

namespace PyDateTime

/-- Strict lexicographic order on lists of naturals (Python tuple `<`). -/
def natLexLt : List Nat → List Nat → Bool
  | [], [] => false
  | [], _ :: _ => true
  | _ :: _, [] => false
  | x :: xs, y :: ys => x < y || (x == y && natLexLt xs ys)

/-- Field tuple used for the lexicographic comparison that Python applies
to `datetime` values. -/
def fields (d : PyDateTime) : List Nat :=
  [d.year, d.month, d.day, d.hour, d.minute, d.second, d.micro]

/-- `a < b` on datetimes (lexicographic). -/
def ltB (a b : PyDateTime) : Bool := natLexLt a.fields b.fields

/-- `a ≤ b` on datetimes: total order, so `a ≤ b ↔ ¬ b < a`. -/
def leB (a b : PyDateTime) : Bool := !(ltB b a)

/-- Gregorian leap-year test. -/
def isLeap (y : Nat) : Bool := y % 4 == 0 && (y % 100 != 0 || y % 400 == 0)

/-- Number of days in a month. -/
def daysInMonth (y m : Nat) : Nat :=
  if m = 2 then (if isLeap y then 29 else 28)
  else if m = 4 ∨ m = 6 ∨ m = 9 ∨ m = 11 then 30
  else 31

/-- Would `datetime.replace` accept this (year, month, day)?  (Python also
bounds the year by 9999; that bound is idealized away.) -/
def validYMD (y m d : Nat) : Bool :=
  1 ≤ m && m ≤ 12 && 1 ≤ d && d ≤ daysInMonth y m

end PyDateTime

open PyDateTime

/-- One `monthly` advance step of `_compute_next_due_from`
(`agents/reminder_agent.py` / `app.py`):
`month = cur.month - 1 + interval_count; year = cur.year + month // 12;`
`month = month % 12 + 1; day = min(cur.day, 28)`, then
`cur.replace(year, month, day)` with the `except` fallback of the source
(`day=1`, then month/year) mirrored for the case the replace would raise. -/
def monthlyStep (cur : PyDateTime) (ic : Nat) : PyDateTime :=
  let m0 := cur.month - 1 + ic
  let y := cur.year + m0 / 12
  let m := m0 % 12 + 1
  let d := min cur.day 28
  if validYMD y m d then { cur with year := y, month := m, day := d }
  else
    let c1 := { cur with day := 1 }
    if m = 12 then { c1 with year := y + 1, month := 1 }
    else { c1 with month := m }

/-- One `yearly` advance step: `cur.replace(year=cur.year + interval_count)`,
falling back (as in the `except` branch of the source) to clamping the day to at most 28
when the plain replace would raise (Feb 29 to a non-leap year). -/
def yearlyStep (cur : PyDateTime) (ic : Nat) : PyDateTime :=
  if validYMD (cur.year + ic) cur.month cur.day then
    { cur with year := cur.year + ic }
  else
    { cur with year := cur.year + ic, day := min cur.day 28 }

/-- Final `return cur if cur >= now else None` of `_compute_next_due_from`. -/
def finalizeDue (cur now : PyDateTime) : Option PyDateTime :=
  if ltB cur now then none else some cur

/-- The `while cur < now and i < max_iterations` loop of
`_compute_next_due_from`, as fuel recursion (fuel = remaining iterations,
starting at 1200).  An unrecognized period returns `None` from inside the
loop, exactly as the `else: return None` of the source. -/
def dueLoop (p : String) (ic : Nat) (now : PyDateTime) : Nat → PyDateTime → Option PyDateTime
  | 0, cur => finalizeDue cur now
  | Nat.succ fuel, cur =>
    if ltB cur now then
      if p = "monthly" then dueLoop p ic now fuel (monthlyStep cur ic)
      else if p = "yearly" then dueLoop p ic now fuel (yearlyStep cur ic)
      else none
    else finalizeDue cur now

/-- `_compute_next_due_from(start_date, period, interval_count)` from
`agents/reminder_agent.py` (duplicated verbatim in `app.py`), with the
implicit `datetime.utcnow()` made an explicit `now` parameter.  The
`if not start_date: return None` null guard is outside the model: `start`
is a value, and Python datetimes are never falsy.  `period` is `Option
String`; `not period` is true for `None` and the empty string. -/
def computeNextDueFrom (start : PyDateTime) (period : Option String) (ic : Nat)
    (now : PyDateTime) : Option PyDateTime :=
  match period with
  | none => finalizeDue start now
  | some p =>
    if p = "one-time" ∨ p = "" then finalizeDue start now
    else dueLoop p ic now 1200 start

/-- Month index of a date: months elapsed since year 0 (`12*year + month-1`).
A `monthly` step advances this by exactly `interval_count`. -/
def monthsIdx (d : PyDateTime) : Nat := 12 * d.year + (d.month - 1)

/-- The month field of a genuine datetime lies in `1..12`. -/
def monthBounds (d : PyDateTime) : Prop := 1 ≤ d.month ∧ d.month ≤ 12

/-! ## Quick-add transaction parsing (`app.py`, `transaction_quick`) -/

/-- Python `str.strip(pred)`: drop matching characters from both ends. -/
def pyStrip (p : Char → Bool) (l : List Char) : List Char :=
  ((l.dropWhile p).reverse.dropWhile p).reverse

/-- Trailing optional group of the amount regex `(?:\.\d{1,2})?`: a dot
followed greedily by one or two digits, or nothing. -/
def takeFrac : List Char → List Char
  | '.' :: d1 :: rest =>
    if d1.isDigit then
      match rest with
      | d2 :: _ => if d2.isDigit then ['.', d1, d2] else ['.', d1]
      | [] => ['.', d1]
    else []
  | _ => []

/-- Greedy match of `\d+(?:\.\d{1,2})?` anchored at the head of `l`
(head is known to be a digit). -/
def matchAmountAt (l : List Char) : List Char :=
  l.takeWhile Char.isDigit ++ takeFrac (l.dropWhile Char.isDigit)

/-- `re.search(r"(\d+(?:\.\d{1,2})?)", text)`: leftmost match, or none. -/
def findFirstAmount : List Char → Option (List Char)
  | [] => none
  | c :: rest =>
    if c.isDigit then some (matchAmountAt (c :: rest)) else findFirstAmount rest

/-- Numeric value of a digit string. -/
def digitsVal (l : List Char) : Nat :=
  l.foldl (fun acc c => acc * 10 + (c.toNat - 48)) 0

/-- `int(float(m.group(1)) * 100)` for a string matching the amount regex.
Modelled exactly over the rationals the match denotes; this agrees with
Python whenever the IEEE double of the matched literal times 100 is exact
(in particular for all integer matches `n` with `n * 100 ≤ 2^53`).  For
some two-decimal literals (e.g. `"0.29"`) the Python float rounding yields
one cent less; theorems about amounts stay inside the exact regime. -/
def amountCentsOfMatch (m : List Char) : Nat :=
  let intPart := m.takeWhile Char.isDigit
  match m.dropWhile Char.isDigit with
  | [] => digitsVal intPart * 100
  | _ :: ds =>
    match ds with
    | [d1] => digitsVal intPart * 100 + (d1.toNat - 48) * 10
    | [d1, d2] => digitsVal intPart * 100 + (d1.toNat - 48) * 10 + (d2.toNat - 48)
    | _ => 0

/-- The `amount_cents` computed by `transaction_quick`: value of the first
regex match, or 0 when no amount is found. -/
def firstAmountCents (l : List Char) : Nat :=
  match findFirstAmount l with
  | some m => amountCentsOfMatch m
  | none => 0

/-- A transaction row as created by `transaction_quick` (fields relevant to
the claims; the DB-dependent category match is not modelled). -/
structure QuickTxn where
  txn_type : String
  amount_cents : Nat
  description : String
  meta_source : String
  deriving Repr, DecidableEq

/-- `transaction_quick` (`app.py`): strips the free text, flashes an error
(creating nothing) when empty, otherwise parses the FIRST amount with
`re.search`, sets `txn_type = 'expense' if amount_cents > 0 else 'expense'`
(both arms `'expense'`, verbatim from the source) and inserts a single
`Transaction` row with the stripped text as description and
`meta={'source': 'quick_add'}`. -/
def quickAddTxns (text : String) : List QuickTxn :=
  let t := pyStrip Char.isWhitespace text.toList
  if t = [] then []
  else
    let amount := firstAmountCents t
    let ty := if amount > 0 then "expense" else "expense"
    [⟨ty, amount, String.mk t, "quick_add"⟩]

/-! ## Semantic cache store (`agents/chat_agent_v2.py`, `SimpleSemanticCache`) -/

/-- The model classes actually exported by `models.py`.  Note `ChatCache`
is absent: `models.py` defines only these six `db.Model` subclasses. -/
def modelsClasses : List String :=
  ["User", "Category", "Bill", "Transaction", "AgentResult", "ChatLog"]

/-- Whether the statement `from models import ChatCache` (inside
`cache_answer`) can succeed.  It cannot: `ChatCache` is not among the
classes of `models.py`, so that statement raises `ImportError` on every
call. -/
def chatCacheDefined : Bool := modelsClasses.contains "ChatCache"

/-- A `chat_cache` row as `cache_answer` would construct it. -/
structure CacheRow where
  user_id : String
  question_text : String
  answer_text : String
  similarity_score : ℚ
  cached_at : Nat
  expires_at : Nat
  deriving Repr, DecidableEq

/-- `SimpleSemanticCache.cache_answer(user_id, question, answer, similarity)`:
inside a `try`, import `ChatCache` from `models`, build a row with
`cached_at = now` and `expires_at = now + 7 days`, add and commit; on any
exception roll back and swallow.  `commitOk` models whether the DB commit
would succeed; the import is the first statement of the `try`, so when the
class is missing the session is rolled back unchanged. -/
def cacheAnswer (commitOk : Bool) (rows : List CacheRow) (uid question answer : String)
    (similarity : ℚ) (now : Nat) : List CacheRow :=
  if chatCacheDefined then
    if commitOk then
      rows ++ [⟨uid, question, answer, similarity, now, now + 7 * 86400⟩]
    else rows
  else rows

/-- Outcome dict of `run_chat_agent_v2`. -/
structure ChatOutcome where
  success : Bool
  reply : String
  cached : Bool
  deriving Repr, DecidableEq

/-- Steps 7–8 of `run_chat_agent_v2` once a fresh (non-cached) assistant
reply has been obtained: `SimpleSemanticCache.cache_answer(user_id,
message, assistant_reply)` (default similarity 1.0), then return
`{'success': True, 'reply': assistant_reply, 'cached': False}`. -/
def chatFreshTail (commitOk : Bool) (rows : List CacheRow) (uid message reply : String)
    (now : Nat) : List CacheRow × ChatOutcome :=
  (cacheAnswer commitOk rows uid message reply 1 now, ⟨true, reply, false⟩)

/-! ## Groq rate limiter (`agents/chat_agent_v2.py`, `GroqRateLimiter`) -/

/-- `RPM_LIMIT = 25` (source: "30 allowed, using 25 for safety margin"). -/
def RPM_LIMIT : Nat := 25

/-- `RPD_LIMIT = 14000` (source: "14,400 allowed, using 14,000 for safety"). -/
def RPD_LIMIT : Nat := 14000

/-- The `while ... popleft()` pruning in `check_limits`: drop entries from
the front while `now - t > window`.  Timestamps are seconds. -/
def pruneWindow (window now : Nat) (q : List Nat) : List Nat :=
  q.dropWhile (fun t => decide (window < now - t))

/-- `f"Rate limit: {self.RPM_LIMIT} requests per minute exceeded. ..."`. -/
def rpmMessage : String :=
  "Rate limit: " ++ toString RPM_LIMIT ++ " requests per minute exceeded. Please wait a moment."

/-- `f"Daily limit: {self.RPD_LIMIT} requests per day exceeded. ..."`. -/
def rpdMessage : String :=
  "Daily limit: " ++ toString RPD_LIMIT ++ " requests per day exceeded. Please try again tomorrow."

/-- `GroqRateLimiter.check_limits`: prune both deques, then test the
minute limit first and the day limit second; also returns the pruned
queues (the method mutates the deques in place). -/
def checkLimits (now : Nat) (minQ dayQ : List Nat) : (Bool × String) × List Nat × List Nat :=
  let m := pruneWindow 60 now minQ
  let d := pruneWindow 86400 now dayQ
  if RPM_LIMIT ≤ m.length then ((false, rpmMessage), m, d)
  else if RPD_LIMIT ≤ d.length then ((false, rpdMessage), m, d)
  else ((true, "OK"), m, d)

/-- `GroqRateLimiter.record_request`: append `now` to both deques. -/
def recordRequest (now : Nat) (minQ dayQ : List Nat) : List Nat × List Nat :=
  (minQ ++ [now], dayQ ++ [now])

/-! ## Deterministic insights (`agents/insights_agent.py`, `_local_insights`) -/

/-- Python `round()` (half to even) of the exact rational `n / d`
(`d > 0`): floor, then compare twice the remainder against `d`, breaking
ties towards the even integer. -/
def pyRoundFrac (n d : Int) : Int :=
  let f := Int.fdiv n d
  let r2 := 2 * (n - f * d)
  if r2 < d then f
  else if d < r2 then f + 1
  else if f % 2 = 0 then f else f + 1

/-- Python `round(q)` for an exact rational. -/
def pyRound (q : ℚ) : ℤ := pyRoundFrac q.num q.den

/-- Python `round(q, 1)` for an exact rational: half-even at one decimal. -/
def pyRound1 (q : ℚ) : ℚ := mkRat (pyRoundFrac (q.num * 10) q.den) 10

/-- The exact rational `(c - p) / p * 100` formed without field division,
so that concrete instances evaluate inside the kernel (`p > 0`). -/
def pctFrac (c p : Int) : ℚ := mkRat ((c - p) * 100) p.toNat

/-- A transaction dict as consumed by `_local_insights`: parsed
`occurred_at` timestamp in seconds (none when absent or unparseable),
`txn_type`, `amount_cents`. -/
structure InsTxn where
  occurred_at : Option Nat
  txn_type : String
  amount_cents : Int
  deriving Repr, DecidableEq

/-- `sum_window(start, end)` inside `_local_insights`: sum `amount_cents`
of expense transactions with `start <= dt < end`. -/
def sumWindow (txns : List InsTxn) (start stop : Nat) : Int :=
  txns.foldl
    (fun s t =>
      match t.occurred_at with
      | none => s
      | some dt =>
        if start ≤ dt ∧ dt < stop ∧ t.txn_type = "expense" then s + t.amount_cents else s)
    0

/-- The week-over-week string of `_local_insights`: current window is the
trailing 7 days, prior window the 7 days before; `prev > 0` formats
`round(((this-prev)/prev)*100)` with a percent sign, else `"+100%"` when
the current sum is positive, else `"0%"`. -/
def wowChange (txns : List InsTxn) (now : Nat) : String :=
  let thisWeek := sumWindow txns (now - 7 * 86400) now
  let prevWeek := sumWindow txns (now - 14 * 86400) (now - 7 * 86400)
  if 0 < prevWeek then
    toString (pyRound (pctFrac thisWeek prevWeek)) ++ "%"
  else if 0 < thisWeek then "+100%"
  else "0%"

/-! ## Forecast category shifts (`agents/forecast_agent.py`) -/

/-- One entry of the `shifts` list built by `run_forecast_agent_for_user`. -/
structure CatShift where
  category : String
  prev_cents : Int
  last_cents : Int
  change_pct : Option ℚ
  deriving Repr, DecidableEq

/-- `dict.get(c, 0)` on the category→amount mapping of a month. -/
def getAmt (m : List (String × Int)) (c : String) : Int := (m.lookup c).getD 0

/-- The per-category shift record: `prev > 0` gives
`round(((last-prev)/prev)*100, 1)`; else `last > 0` gives `None`; else
`0.0`. -/
def shiftFor (last prev : List (String × Int)) (c : String) : CatShift :=
  let lastAmt := getAmt last c
  let prevAmt := getAmt prev c
  let pct : Option ℚ :=
    if 0 < prevAmt then some (pyRound1 (pctFrac lastAmt prevAmt))
    else if 0 < lastAmt then none
    else some 0
  ⟨c, prevAmt, lastAmt, pct⟩

/-- `cats = set(list(last.keys()) + list(prev.keys()))`, then one shift per
category (set iteration order is irrelevant to the claims). -/
def catShifts (last prev : List (String × Int)) : List CatShift :=
  ((last.map Prod.fst ++ prev.map Prod.fst).eraseDups).map (shiftFor last prev)

/-- Sort key `x['change_pct']` (only applied to non-`None` entries). -/
def shiftKey (s : CatShift) : ℚ := s.change_pct.getD 0

/-- `sorted([s for s in shifts if s['change_pct'] is not None], key=...,`
`reverse=True)[:5]`. -/
def topIncreases (last prev : List (String × Int)) : List CatShift :=
  (((catShifts last prev).filter (fun s => s.change_pct.isSome)).mergeSort
    (fun a b => decide (shiftKey b ≤ shiftKey a))).take 5

/-- `sorted([s for s in shifts if s['change_pct'] is not None], key=...)[:5]`. -/
def topDecreases (last prev : List (String × Int)) : List CatShift :=
  (((catShifts last prev).filter (fun s => s.change_pct.isSome)).mergeSort
    (fun a b => decide (shiftKey a ≤ shiftKey b))).take 5

/-! ## Ticker sanitization (`agents/investment_agent.py`) -/

/-- Character class of `TICKER_RE = ^[A-Z0-9.\-]{1,10}$`: code points
65..90 are `A`..`Z`, 48..57 are `0`..`9`, 46 is `.`, 45 is `-`. -/
def isTickerChar (c : Char) : Bool :=
  (65 ≤ c.toNat && c.toNat ≤ 90) || (48 ≤ c.toNat && c.toNat ≤ 57) ||
    c.toNat = 46 || c.toNat = 45

/-- The characters stripped by the quote/bracket `strip`: code points 34
(double quote), 39 (single quote), 123/125 (braces), 91/93 (brackets),
40/41 (parentheses). -/
def isQuoteChar (c : Char) : Bool :=
  c.toNat = 34 || c.toNat = 39 || c.toNat = 123 || c.toNat = 125 ||
    c.toNat = 91 || c.toNat = 93 || c.toNat = 40 || c.toNat = 41

/-- `if s.startswith('$'): s = s[1:]` — drop one leading dollar sign. -/
def dropDollar : List Char → List Char
  | '$' :: rest => rest
  | l => l

/-- `sanitize_ticker` on the character list: `strip().upper()`, strip
surrounding quotes/braces/brackets/parens, drop one leading `$`, then
remove every character outside `[A-Z0-9.\-]` (the `re.sub`). -/
def sanitizeTickerL (l : List Char) : List Char :=
  let s1 := pyStrip Char.isWhitespace l
  let s2 := s1.map Char.toUpper
  let s3 := pyStrip isQuoteChar s2
  (dropDollar s3).filter isTickerChar

/-- `sanitize_ticker(t)`: empty (falsy) input short-circuits to `""`. -/
def sanitizeTicker (t : String) : String :=
  if t = "" then "" else String.mk (sanitizeTickerL t.toList)

/-- `is_valid_ticker(s)`: nonempty and fully matching
`^[A-Z0-9.\-]{1,10}$`. -/
def isValidTicker (s : String) : Bool :=
  decide (1 ≤ s.toList.length) && decide (s.toList.length ≤ 10) &&
    s.toList.all isTickerChar

/-! ## Portfolio normalization (`investment_agent.py`, `summarize_portfolio._normalize`) -/

/-- `str.upper()` (ASCII model). -/
def pyUpper (s : String) : String := String.mk (s.toList.map Char.toUpper)

/-- Fragment of Python `float(str)`: optional sign, decimal digits with an
optional fractional part.  Exponents, `inf`/`nan` and underscores are
outside the fragment (none are exercised by the claims); an unparsable
string is `none` (Python raises, caught by the `except` of the caller). -/
def parseFloatQ (s : String) : Option ℚ :=
  let l := pyStrip Char.isWhitespace s.toList
  let sign : Int := match l with
    | '-' :: _ => -1
    | _ => 1
  let l2 := match l with
    | '+' :: rest => rest
    | '-' :: rest => rest
    | _ => l
  let intPart := l2.takeWhile Char.isDigit
  match l2.dropWhile Char.isDigit with
  | [] => if intPart = [] then none else some (mkRat (sign * digitsVal intPart) 1)
  | '.' :: fr =>
    let frd := fr.takeWhile Char.isDigit
    if fr.dropWhile Char.isDigit ≠ [] then none
    else if intPart = [] ∧ frd = [] then none
    else some (mkRat (sign * (digitsVal intPart * 10 ^ frd.length + digitsVal frd))
      (10 ^ frd.length))
  | _ => none

/-- Python dict assignment `out[k] = v` on an association list. -/
def setKey (out : List (String × ℚ)) (k : String) (v : ℚ) : List (String × ℚ) :=
  if out.any (fun kv => kv.1 = k) then
    out.map (fun kv => if kv.1 = k then (k, v) else kv)
  else out ++ [(k, v)]

/-- The dict branch of `_normalize`: sanitize and validate each key,
silently dropping invalid ones; `float(v)` failure falls back to `1.0`
(the parse outcome of a value is carried as `Option ℚ`). -/
def dictPath (entries : List (String × Option ℚ)) : List (String × ℚ) :=
  entries.foldl
    (fun out kv =>
      let tk := sanitizeTicker kv.1
      if isValidTicker tk then setKey out tk (kv.2.getD 1) else out)
    []

/-- `inp.replace(',', ' ').split()`: whitespace-split, empties dropped. -/
def splitWsAux : List Char → List Char → List (List Char)
  | [], acc => if acc = [] then [] else [acc.reverse]
  | c :: rest, acc =>
    if c.isWhitespace then
      if acc = [] then splitWsAux rest [] else acc.reverse :: splitWsAux rest []
    else splitWsAux rest (c :: acc)

def splitWs (l : List Char) : List (List Char) := splitWsAux l []

/-- One token of the free-text fallback: `TICKER:QTY` (split at the first
colon, quantity via `float` with `1.0` fallback) or a bare ticker
(quantity `1.0`); invalid tickers are dropped. -/
def tokenStep (out : List (String × ℚ)) (p : List Char) : List (String × ℚ) :=
  if p.contains ':' then
    let t := p.takeWhile (fun c => c != ':')
    let q := (p.dropWhile (fun c => c != ':')).tail
    let tk := sanitizeTicker (String.mk t)
    if isValidTicker tk then setKey out tk ((parseFloatQ (String.mk q)).getD 1) else out
  else
    let tk := sanitizeTicker (String.mk p)
    if isValidTicker tk then setKey out tk 1 else out

/-- The free-text branch of `_normalize`. -/
def tokenPath (raw : String) : List (String × ℚ) :=
  (splitWs (raw.toList.map (fun c => if c = ',' then ' ' else c))).foldl tokenStep []

/-- The value passed to `_normalize`: Python `None`, a dict (each value
carrying its `float(v)` parse outcome), or a string together with the
outcome of `json.loads` on it (`json.loads` is an external library call;
the caller of this model must supply its result consistently — e.g.
`json.loads` on the string `LBRACE"$aapl": 2 RBRACE` yields the one-entry
dict `$aapl ↦ 2`). -/
inductive PortfolioInput where
  | pyNone
  | pyDict (entries : List (String × Option ℚ))
  | pyStr (raw : String) (jsonParsed : Option (List (String × Option ℚ)))

/-- `_normalize(inp)`.  For a string, JSON is tried first: a parsed dict
whose values all convert maps keys through `str(k).upper()` WITHOUT
sanitization or validation; a failed parse (or a value `float` failure,
which aborts the dict comprehension) falls back to token parsing. -/
def normalizePortfolio : PortfolioInput → List (String × ℚ)
  | .pyNone => []
  | .pyDict entries => dictPath entries
  | .pyStr raw parsed =>
    match parsed with
    | some entries =>
      if entries.all (fun kv => kv.2.isSome) then
        entries.map (fun kv => (pyUpper kv.1, kv.2.getD 0))
      else tokenPath raw
    | none => tokenPath raw

/-- The tickers `summarize_portfolio` iterates over (each is passed to
`analyze_stock`). -/
def analyzedTickers (inp : PortfolioInput) : List String :=
  (normalizePortfolio inp).map Prod.fst

/-! ## Clarification gate (`investment_agent.py`, `investment_advice`) -/

/-- Python truthiness of `user_profile.get(key)` for string-valued
profile fields: `None` and `""` are falsy. -/
def pyFalsy : Option String → Bool
  | none => true
  | some s => s = ""

/-- The fixed risk-tolerance clarification question. -/
def riskQuestion : String := "What is your risk tolerance? (low / medium / high)"

/-- A user profile as read by `get_clarification_questions`. -/
structure UserProfile where
  risk_tolerance : Option String
  time_horizon : Option String
  investment_amount : Option String
  investment_goals : Option String

/-- `get_clarification_questions`: one fixed question per missing field,
in source order. -/
def getClarificationQuestions (p : UserProfile) : List String :=
  (if pyFalsy p.risk_tolerance then [riskQuestion] else []) ++
  (if pyFalsy p.time_horizon then ["What is your investment time horizon?"] else []) ++
  (if pyFalsy p.investment_amount then
    ["How much amount can you invest monthly or as a lump sum?"] else []) ++
  (if pyFalsy p.investment_goals then
    ["Please describe your investment goals (e.g., target amount and timeframe)"] else [])

/-- `"\n".join(lines)`. -/
def joinLines : List String → String
  | [] => ""
  | [s] => s
  | s :: t :: rest => s ++ "\n" ++ joinLines (t :: rest)

/-- Outcome of `investment_advice`: either the clarification string (the
early return — no market data is fetched, no LLM called), or the
market-data/LLM path, tagged with the normalized portfolio that
`summarize_portfolio` would analyze before `call_gemini` runs. -/
inductive AdviceResult where
  | clarify (msg : String)
  | advise (marketTickers : List (String × ℚ))

/-- `investment_advice(portfolio, user_profile)`: a non-empty
clarification list short-circuits before `summarize_portfolio` and
`call_gemini`. -/
def investmentAdvice (portfolio : PortfolioInput) (p : UserProfile) : AdviceResult :=
  let qs := getClarificationQuestions p
  if qs = [] then .advise (normalizePortfolio portfolio)
  else .clarify ("To provide accurate advice, I need a bit more information:\n" ++
    joinLines (qs.map (fun q => "- " ++ q)))
/-! ## Theorems -/

example : computeNextDueFrom ⟨2024, 1, 31, 0, 0, 0, 0⟩ (some "monthly") 1 ⟨2024, 3, 15, 0, 0, 0, 0⟩ =
    some ⟨2024, 3, 28, 0, 0, 0, 0⟩ := by decide

example : computeNextDueFrom ⟨2024, 1, 31, 0, 0, 0, 0⟩ (some "one-time") 1 ⟨2024, 3, 15, 0, 0, 0, 0⟩ =
    none := by decide

example : computeNextDueFrom ⟨2024, 5, 1, 0, 0, 0, 0⟩ (some "weekly") 1 ⟨2024, 3, 15, 0, 0, 0, 0⟩ =
    some ⟨2024, 5, 1, 0, 0, 0, 0⟩ := by decide

lemma finalizeDue_some_ge {cur now d : PyDateTime} (h : finalizeDue cur now = some d) :
    leB now d = true := by
  unfold finalizeDue at h
  by_cases hlt : ltB cur now = true
  · simp [hlt] at h
  · simp [hlt] at h
    subst h
    simpa [leB] using (by simpa using hlt)

lemma dueLoop_some_ge {p : String} {ic : Nat} {now : PyDateTime} :
    ∀ (fuel : Nat) (cur d : PyDateTime), dueLoop p ic now fuel cur = some d → leB now d = true := by
  intro fuel
  induction fuel with
  | zero => intro cur d h; exact finalizeDue_some_ge h
  | succ fuel ih =>
    intro cur d h
    unfold dueLoop at h
    by_cases hlt : ltB cur now = true
    · rw [if_pos hlt] at h
      by_cases hm : p = "monthly"
      · subst hm
        rw [if_pos rfl] at h
        exact ih _ _ h
      · by_cases hy : p = "yearly"
        · subst hy
          rw [if_neg hm, if_pos rfl] at h
          exact ih _ _ h
        · rw [if_neg hm, if_neg hy] at h
          exact Option.noConfusion h
    · simp only [Bool.not_eq_true] at hlt
      rw [if_neg (by simp [hlt])] at h
      exact finalizeDue_some_ge h

lemma monthlyStep_day_le (cur : PyDateTime) (ic : Nat) : (monthlyStep cur ic).day ≤ 28 := by
  unfold monthlyStep
  dsimp only
  split
  · exact Nat.min_le_right _ _
  · split <;> simp

lemma dueLoop_monthly_day_le {ic : Nat} {now : PyDateTime} :
    ∀ (fuel : Nat) (cur d : PyDateTime), cur.day ≤ 28 →
      dueLoop "monthly" ic now fuel cur = some d → d.day ≤ 28 := by
  intro fuel
  induction fuel with
  | zero =>
    intro cur d hday h
    unfold dueLoop finalizeDue at h
    by_cases hlt : ltB cur now = true
    · simp [hlt] at h
    · simp [hlt] at h; subst h; exact hday
  | succ fuel ih =>
    intro cur d hday h
    unfold dueLoop at h
    by_cases hlt : ltB cur now = true
    · simp only [hlt, if_true, reduceIte] at h
      exact ih _ _ (monthlyStep_day_le cur ic) h
    · simp only [Bool.not_eq_true] at hlt
      simp only [hlt, Bool.false_eq_true, if_false] at h
      unfold finalizeDue at h
      simp [hlt] at h
      subst h
      exact hday

/-- **C1.** For a non-null start date in the past (`start < now`) and
`interval_count ≥ 1`: with `period ∈ {monthly, yearly}` the recurrence
advance returns no value or a timestamp `≥ now`; with `period = monthly`
any returned date has day-of-month ≤ 28; with `period` absent or
`one-time` it returns the start unchanged when still in the future and no
value otherwise; any other period value yields no value. -/
theorem c1_recurrence_advance (start now : PyDateTime) (period : Option String) (ic : Nat)
    (hpast : ltB start now = true) (hic : 1 ≤ ic) :
    ((period = some "monthly" ∨ period = some "yearly") →
      computeNextDueFrom start period ic now = none ∨
      ∃ d, computeNextDueFrom start period ic now = some d ∧ leB now d = true)
    ∧ (period = some "monthly" →
      ∀ d, computeNextDueFrom start period ic now = some d → d.day ≤ 28)
    ∧ ((period = none ∨ period = some "one-time") →
      computeNextDueFrom start period ic now =
        (if ltB start now then none else some start))
    ∧ (∀ p, period = some p → p ≠ "monthly" → p ≠ "yearly" → p ≠ "one-time" → p ≠ "" →
      computeNextDueFrom start period ic now = none) := by
  refine ⟨?_, ?_, ?_, ?_⟩
  · rintro (rfl | rfl)
    all_goals
      rcases h : computeNextDueFrom start _ ic now with _ | d
      · exact Or.inl rfl
      · refine Or.inr ⟨d, rfl, ?_⟩
        unfold computeNextDueFrom at h
        simp at h
        exact dueLoop_some_ge _ _ _ h
  · rintro rfl d h
    unfold computeNextDueFrom at h
    simp at h
    have h1200 : (1200 : Nat) = Nat.succ 1199 := rfl
    rw [h1200] at h
    unfold dueLoop at h
    simp only [hpast, if_true, reduceIte] at h
    exact dueLoop_monthly_day_le _ _ _ (monthlyStep_day_le start ic) h
  · rintro (rfl | rfl) <;> simp [computeNextDueFrom, finalizeDue]
  · rintro p rfl hm hy ho he
    unfold computeNextDueFrom
    simp only [ho, he, or_self, if_false, reduceIte]
    have h1200 : (1200 : Nat) = Nat.succ 1199 := rfl
    rw [h1200]
    unfold dueLoop
    simp [hpast, hm, hy, ho, he]

/-- Witness for C1 at `start = 2024-01-31`, `now = 2024-03-15`,
`period = monthly`, `interval_count = 1`. -/
theorem c1_recurrence_advance_witness :
    (computeNextDueFrom ⟨2024, 1, 31, 0, 0, 0, 0⟩ (some "monthly") 1 ⟨2024, 3, 15, 0, 0, 0, 0⟩ = none ∨
      ∃ d, computeNextDueFrom ⟨2024, 1, 31, 0, 0, 0, 0⟩ (some "monthly") 1 ⟨2024, 3, 15, 0, 0, 0, 0⟩ =
          some d ∧ leB ⟨2024, 3, 15, 0, 0, 0, 0⟩ d = true) ∧
    computeNextDueFrom ⟨2024, 1, 31, 0, 0, 0, 0⟩ (some "weekly") 1 ⟨2024, 3, 15, 0, 0, 0, 0⟩ = none := by
  constructor
  · exact (c1_recurrence_advance ⟨2024, 1, 31, 0, 0, 0, 0⟩ ⟨2024, 3, 15, 0, 0, 0, 0⟩
      (some "monthly") 1 (by decide) (by decide)).1 (Or.inl rfl)
  · exact (c1_recurrence_advance ⟨2024, 1, 31, 0, 0, 0, 0⟩ ⟨2024, 3, 15, 0, 0, 0, 0⟩
      (some "weekly") 1 (by decide) (by decide)).2.2.2 "weekly" rfl
      (by decide) (by decide) (by decide) (by decide)

lemma monthsIdx_lt_ltB {a b : PyDateTime} (ha : monthBounds a) (hb : monthBounds b)
    (h : monthsIdx a < monthsIdx b) : ltB a b = true := by
  unfold ltB natLexLt fields
  rcases Nat.lt_trichotomy a.year b.year with hy | hy | hy
  · simp [hy]
  · have hm : a.month < b.month := by
      unfold monthsIdx at h
      omega
    simp [natLexLt, hy, hm]
  · exfalso
    unfold monthsIdx at h
    rcases ha with ⟨ha1, ha2⟩
    rcases hb with ⟨hb1, hb2⟩
    omega

lemma yearLt_ltB {a b : PyDateTime} (h : a.year < b.year) : ltB a b = true := by
  unfold ltB natLexLt fields
  simp [h]

lemma monthlyStep_monthsIdx {cur : PyDateTime} (ic : Nat) (hm : monthBounds cur)
    (hd : 1 ≤ cur.day) :
    monthsIdx (monthlyStep cur ic) = monthsIdx cur + ic ∧
      monthBounds (monthlyStep cur ic) ∧ 1 ≤ (monthlyStep cur ic).day := by
  have hdim : 28 ≤ daysInMonth (cur.year + (cur.month - 1 + ic) / 12)
      ((cur.month - 1 + ic) % 12 + 1) := by
    unfold daysInMonth
    repeat' split
    all_goals decide
  have hv : validYMD (cur.year + (cur.month - 1 + ic) / 12) ((cur.month - 1 + ic) % 12 + 1)
      (min cur.day 28) = true := by
    simp only [validYMD, Bool.and_eq_true, decide_eq_true_eq]
    omega
  rcases hm with ⟨hm1, hm2⟩
  unfold monthlyStep
  dsimp only
  rw [if_pos hv]
  unfold monthsIdx monthBounds
  dsimp only
  refine ⟨by omega, ⟨by omega, by omega⟩, by omega⟩

lemma dueLoop_monthly_none {ic : Nat} {now : PyDateTime} (hbn : monthBounds now) :
    ∀ (fuel : Nat) (cur : PyDateTime), monthBounds cur → 1 ≤ cur.day →
      monthsIdx cur + fuel * ic < monthsIdx now →
      dueLoop "monthly" ic now fuel cur = none := by
  intro fuel
  induction fuel with
  | zero =>
    intro cur hb hd h
    have hlt : ltB cur now = true := monthsIdx_lt_ltB hb hbn (by omega)
    unfold dueLoop finalizeDue
    rw [if_pos hlt]
  | succ fuel ih =>
    intro cur hb hd h
    rw [Nat.succ_mul] at h
    have hlt : ltB cur now = true := monthsIdx_lt_ltB hb hbn (by omega)
    unfold dueLoop
    rw [if_pos hlt, if_pos rfl]
    obtain ⟨hidx, hb2, hd2⟩ := monthlyStep_monthsIdx ic hb hd
    exact ih _ hb2 hd2 (by rw [hidx]; omega)

lemma dueLoop_yearly_none {ic : Nat} {now : PyDateTime} :
    ∀ (fuel : Nat) (cur : PyDateTime), cur.year + fuel * ic < now.year →
      dueLoop "yearly" ic now fuel cur = none := by
  intro fuel
  induction fuel with
  | zero =>
    intro cur h
    have hlt : ltB cur now = true := yearLt_ltB (by omega)
    unfold dueLoop finalizeDue
    rw [if_pos hlt]
  | succ fuel ih =>
    intro cur h
    rw [Nat.succ_mul] at h
    have hlt : ltB cur now = true := yearLt_ltB (by omega)
    unfold dueLoop
    rw [if_pos hlt, if_neg (by decide), if_pos rfl]
    have hy : (yearlyStep cur ic).year = cur.year + ic := by
      unfold yearlyStep
      split <;> rfl
    exact ih _ (by rw [hy]; omega)

lemma computeNextDueFrom_eq_loop (start now : PyDateTime) (p : String) (ic : Nat)
    (ho : p ≠ "one-time") (he : p ≠ "") :
    computeNextDueFrom start (some p) ic now = dueLoop p ic now 1200 start := by
  unfold computeNextDueFrom
  dsimp only
  rw [if_neg]
  rintro (h | h)
  · exact ho h
  · exact he h

/-- **C10.** The advancing loop of `_compute_next_due_from` is fuel-bounded
at 1200 iterations (totality is by construction of `dueLoop`); consequently
a monthly start more than `1200 * interval_count` months in the past (or a
yearly start more than `1200 * interval_count` years in the past) exhausts
the loop while still in the past, and the function returns no value. -/
theorem c10_iteration_cap (start now : PyDateTime) (ic : Nat)
    (hbs : monthBounds start) (hbn : monthBounds now) (hd : 1 ≤ start.day) (hic : 1 ≤ ic) :
    (monthsIdx start + 1200 * ic < monthsIdx now →
      computeNextDueFrom start (some "monthly") ic now = none)
    ∧ (start.year + 1200 * ic < now.year →
      computeNextDueFrom start (some "yearly") ic now = none) := by
  constructor
  · intro h
    rw [computeNextDueFrom_eq_loop start now "monthly" ic (by decide) (by decide)]
    exact dueLoop_monthly_none hbn 1200 start hbs hd (by omega)
  · intro h
    rw [computeNextDueFrom_eq_loop start now "yearly" ic (by decide) (by decide)]
    exact dueLoop_yearly_none 1200 start (by omega)

/-- Witness for C10: a monthly bill from 1900-01-01 (with `now` 2026-01-01)
and a yearly bill from 1900-01-01 (with `now` 3200-01-01) both fall past the
1200-iteration cap and get no `next_due`. -/
theorem c10_iteration_cap_witness :
    computeNextDueFrom ⟨1900, 1, 1, 0, 0, 0, 0⟩ (some "monthly") 1 ⟨2026, 1, 1, 0, 0, 0, 0⟩ = none ∧
    computeNextDueFrom ⟨1900, 1, 1, 0, 0, 0, 0⟩ (some "yearly") 1 ⟨3200, 1, 1, 0, 0, 0, 0⟩ = none := by
  constructor
  · exact (c10_iteration_cap ⟨1900, 1, 1, 0, 0, 0, 0⟩ ⟨2026, 1, 1, 0, 0, 0, 0⟩ 1
      (by constructor <;> decide) (by constructor <;> decide) (by decide) (by decide)).1 (by decide)
  · exact (c10_iteration_cap ⟨1900, 1, 1, 0, 0, 0, 0⟩ ⟨3200, 1, 1, 0, 0, 0, 0⟩ 1
      (by constructor <;> decide) (by constructor <;> decide) (by decide) (by decide)).2 (by decide)

example : firstAmountCents ("paid 500 for groceries".toList) = 50000 := by decide
example : firstAmountCents ("coffee 3.5".toList) = 350 := by decide
example : firstAmountCents ("coffee 3.55 x".toList) = 355 := by decide

/-- **C2 counterexample.** On `"paid 500 for groceries and 200 for parking"`
the quick-add endpoint creates ONE transaction of ₹500.00, not two
transactions of ₹500.00 and ₹200.00 as the claim states. -/
theorem c2_counterexample :
    ((quickAddTxns "paid 500 for groceries and 200 for parking").map
        (fun t => t.amount_cents) = [50000]) ∧
    (quickAddTxns "paid 500 for groceries and 200 for parking").length ≠ 2 := by
  constructor
  · decide
  · decide

/-- **C2 (amended).** Quick-add creates exactly one transaction per
non-empty entry: its type is always `expense` (no income/expense keyword
cue lists exist in the code), its amount is the first monetary amount
found in the text (0 when none), and it is tagged with the stripped source
text and the metadata source tag `quick_add`. -/
theorem c2_quick_add_amended (text : String)
    (hne : pyStrip Char.isWhitespace text.toList ≠ []) :
    (quickAddTxns text).length = 1 ∧
    ∀ t ∈ quickAddTxns text, t.txn_type = "expense" ∧ t.meta_source = "quick_add" ∧
      t.description = String.mk (pyStrip Char.isWhitespace text.toList) ∧
      t.amount_cents = firstAmountCents (pyStrip Char.isWhitespace text.toList) := by
  unfold quickAddTxns
  rw [if_neg hne]
  dsimp only
  constructor
  · rfl
  · intro t ht
    rcases List.mem_singleton.mp ht with rfl
    refine ⟨?_, rfl, rfl, rfl⟩
    dsimp only
    split <;> rfl

/-- Witness for C2 (amended) at the concrete input of the claim. -/
theorem c2_quick_add_amended_witness :
    (quickAddTxns "paid 500 for groceries and 200 for parking").length = 1 :=
  (c2_quick_add_amended "paid 500 for groceries and 200 for parking" (by decide)).1

/-- **C3 (code bug).** The claim says every fresh chat v2 answer inserts a
`ChatCache` row with a 7-day expiry.  The code intends this, but
`models.py` defines no `ChatCache` class, so `from models import ChatCache`
raises on every call; the failure is swallowed after rollback and the chat
request still succeeds — yet no cache row is ever inserted, even when the
commit itself would succeed. -/
theorem c3_cache_store_never_inserts (commitOk : Bool) (rows : List CacheRow)
    (uid message reply : String) (now : Nat) :
    chatCacheDefined = false ∧
    (chatFreshTail commitOk rows uid message reply now).1 = rows ∧
    (chatFreshTail commitOk rows uid message reply now).2 = ⟨true, reply, false⟩ := by
  refine ⟨rfl, ?_, rfl⟩
  unfold chatFreshTail cacheAnswer
  simp [chatCacheDefined, modelsClasses]

lemma dropWhile_replicate_false {p : Nat → Bool} {a : Nat} (n : Nat) (h : p a = false) :
    (List.replicate n a).dropWhile p = List.replicate n a := by
  cases n with
  | zero => rfl
  | succ n => simp [List.replicate_succ, List.dropWhile_cons, h]

/-- **C6 counterexample.** With 14,000 timestamps all inside the trailing
day (and hence 14,000 ≥ 25 inside the trailing minute), `check_limits`
denies with the PER-MINUTE message, not the daily one, refuting the
clause of the claim that 14,000 day-window entries yield a message naming
the daily limit. -/
theorem c6_counterexample :
    (pruneWindow 86400 100000 (List.replicate 14000 100000)).length = 14000 ∧
    (checkLimits 100000 (List.replicate 14000 100000) (List.replicate 14000 100000)).1 =
      (false, rpmMessage) ∧
    rpmMessage ≠ rpdMessage := by
  have hm : pruneWindow 60 100000 (List.replicate 14000 100000) =
      List.replicate 14000 100000 := by
    unfold pruneWindow
    exact dropWhile_replicate_false 14000 (by decide)
  have hd : pruneWindow 86400 100000 (List.replicate 14000 100000) =
      List.replicate 14000 100000 := by
    unfold pruneWindow
    exact dropWhile_replicate_false 14000 (by decide)
  refine ⟨by rw [hd, List.length_replicate], ?_, by decide⟩
  unfold checkLimits
  dsimp only
  rw [hm, hd]
  simp only [List.length_replicate]
  rw [if_pos (by norm_num [RPM_LIMIT])]

/-- **C6 (amended).** After pruning, 25 or more minute-window entries deny
with the per-minute message; 14,000 or more day-window entries deny with
the daily message PROVIDED the minute window is under its limit (the
minute check has priority); and once every minute-window entry is older
than 60 seconds and the day budget is not exhausted, a check is allowed. -/
theorem c6_rate_limiter_amended (now : Nat) (minQ dayQ : List Nat) :
    (RPM_LIMIT ≤ (pruneWindow 60 now minQ).length →
      (checkLimits now minQ dayQ).1 = (false, rpmMessage)) ∧
    ((pruneWindow 60 now minQ).length < RPM_LIMIT →
      RPD_LIMIT ≤ (pruneWindow 86400 now dayQ).length →
      (checkLimits now minQ dayQ).1 = (false, rpdMessage)) ∧
    ((∀ t ∈ minQ, 60 < now - t) →
      (pruneWindow 86400 now dayQ).length < RPD_LIMIT →
      (checkLimits now minQ dayQ).1 = (true, "OK")) := by
  refine ⟨?_, ?_, ?_⟩
  · intro h
    unfold checkLimits
    rw [if_pos h]
  · intro h1 h2
    unfold checkLimits
    rw [if_neg (by omega), if_pos h2]
  · intro h1 h2
    have hm : pruneWindow 60 now minQ = [] := by
      unfold pruneWindow
      rw [List.dropWhile_eq_nil_iff]
      intro t ht
      simpa using h1 t ht
    unfold checkLimits
    rw [if_neg (by rw [hm]; simp [RPM_LIMIT]), if_neg (by omega)]

/-- Witness for C6 (amended): 25 fresh timestamps deny with the per-minute
message; a single fully-elapsed minute entry with a small day queue is
allowed again. -/
theorem c6_rate_limiter_amended_witness :
    (checkLimits 100 (List.replicate 25 100) (List.replicate 25 100)).1 = (false, rpmMessage) ∧
    (checkLimits 100 [10] [10]).1 = (true, "OK") := by
  constructor
  · refine (c6_rate_limiter_amended 100 (List.replicate 25 100) (List.replicate 25 100)).1 ?_
    unfold pruneWindow
    rw [dropWhile_replicate_false 25 (by decide), List.length_replicate]
    norm_num [RPM_LIMIT]
  · exact (c6_rate_limiter_amended 100 [10] [10]).2.2 (by decide) (by decide)

lemma pctFrac_eq (c p : Int) (hp : 0 < p) :
    pctFrac c p = ((c : ℚ) - (p : ℚ)) / (p : ℚ) * 100 := by
  unfold pctFrac
  rw [Rat.mkRat_eq_div]
  have hpn : ((p.toNat : ℚ)) = (p : ℚ) := by
    exact_mod_cast Int.toNat_of_nonneg (le_of_lt hp)
  push_cast
  rw [hpn]
  ring

example : pyRoundFrac 41 2 = 20 := by decide
example : pyRoundFrac 43 2 = 22 := by decide
example : pyRoundFrac 201 10 = 20 := by decide
example : pyRound (pctFrac 1200 1000) = 20 := by decide

/-- **C7 counterexample.** With prior-week total `P = 1000` and
current-week total `C = 1200` the code renders `"20%"` — a positive
integer is formatted without a plus sign — not `"+20%"` as the concrete
example of the claim states. -/
theorem c7_counterexample :
    wowChange
      [⟨some (10 * 86400), "expense", 1200⟩, ⟨some (3 * 86400), "expense", 1000⟩]
      (15 * 86400) = "20%" ∧
    ("20%" : String) ≠ "+20%" := by
  constructor
  · decide
  · decide

/-- **C7 (amended).** With prior-week expense total `P` and current-week
total `C`: `P > 0` yields `round((C−P)/P×100)` with a percent sign (so
`P = 1000, C = 1200` yields `"20%"`, with no plus sign); `P = 0, C > 0`
yields `"+100%"`; `P = 0, C = 0` yields `"0%"`. -/
theorem c7_wow_amended (txns : List InsTxn) (now : Nat) :
    (0 < sumWindow txns (now - 14 * 86400) (now - 7 * 86400) →
      wowChange txns now =
        toString (pyRound (((sumWindow txns (now - 7 * 86400) now : ℚ) -
            (sumWindow txns (now - 14 * 86400) (now - 7 * 86400) : ℚ)) /
          (sumWindow txns (now - 14 * 86400) (now - 7 * 86400) : ℚ) * 100)) ++ "%") ∧
    (sumWindow txns (now - 14 * 86400) (now - 7 * 86400) = 0 →
      0 < sumWindow txns (now - 7 * 86400) now → wowChange txns now = "+100%") ∧
    (sumWindow txns (now - 14 * 86400) (now - 7 * 86400) = 0 →
      sumWindow txns (now - 7 * 86400) now = 0 → wowChange txns now = "0%") := by
  refine ⟨?_, ?_, ?_⟩
  · intro h
    unfold wowChange
    rw [if_pos h, pctFrac_eq _ _ h]
  · intro hp hc
    unfold wowChange
    rw [if_neg (by omega), if_pos hc]
  · intro hp hc
    unfold wowChange
    rw [if_neg (by omega), if_neg (by omega)]

/-- Witness for C7 (amended) at `P = 1000`, `C = 1200`. -/
theorem c7_wow_amended_witness :
    wowChange
      [⟨some (10 * 86400), "expense", 1200⟩, ⟨some (3 * 86400), "expense", 1000⟩]
      (15 * 86400) =
      toString (pyRound (((sumWindow
          [⟨some (10 * 86400), "expense", 1200⟩, ⟨some (3 * 86400), "expense", 1000⟩]
          (15 * 86400 - 7 * 86400) (15 * 86400) : ℚ) -
        (sumWindow
          [⟨some (10 * 86400), "expense", 1200⟩, ⟨some (3 * 86400), "expense", 1000⟩]
          (15 * 86400 - 14 * 86400) (15 * 86400 - 7 * 86400) : ℚ)) /
        (sumWindow
          [⟨some (10 * 86400), "expense", 1200⟩, ⟨some (3 * 86400), "expense", 1000⟩]
          (15 * 86400 - 14 * 86400) (15 * 86400 - 7 * 86400) : ℚ) * 100)) ++ "%" :=
  (c7_wow_amended
    [⟨some (10 * 86400), "expense", 1200⟩, ⟨some (3 * 86400), "expense", 1000⟩]
    (15 * 86400)).1 (by decide)

lemma mem_filter_of_mem_top {l : List CatShift} {le : CatShift → CatShift → Bool}
    {s : CatShift} (h : s ∈ (l.mergeSort le).take 5) : s ∈ l := by
  have h1 : s ∈ l.mergeSort le := List.take_subset 5 _ h
  exact (List.mergeSort_perm l le).mem_iff.mp h1

/-- **C8.** Category shifts: percent change is
`round(((last−prev)/prev)×100, 1)` when `prev > 0`, the explicit `None`
marker (not 0) when `prev = 0 < last`, and `0.0` when both are zero; and
entries with `None` change are excluded from both top-5 rankings. -/
theorem c8_category_shift (last prev : List (String × Int)) (c : String) :
    (0 < getAmt prev c → (shiftFor last prev c).change_pct =
      some (pyRound1 (((getAmt last c : ℚ) - (getAmt prev c : ℚ)) / (getAmt prev c : ℚ) * 100))) ∧
    (getAmt prev c = 0 → 0 < getAmt last c → (shiftFor last prev c).change_pct = none) ∧
    (getAmt prev c = 0 → getAmt last c = 0 → (shiftFor last prev c).change_pct = some 0) ∧
    (∀ s ∈ topIncreases last prev, s.change_pct ≠ none) ∧
    (∀ s ∈ topDecreases last prev, s.change_pct ≠ none) := by
  refine ⟨?_, ?_, ?_, ?_, ?_⟩
  · intro h
    unfold shiftFor
    dsimp only
    rw [if_pos h, pctFrac_eq _ _ h]
  · intro hp hl
    unfold shiftFor
    dsimp only
    rw [if_neg (by omega), if_pos hl]
  · intro hp hl
    unfold shiftFor
    dsimp only
    rw [if_neg (by omega), if_neg (by omega)]
  · intro s hs
    have := List.mem_filter.mp (mem_filter_of_mem_top hs)
    exact Option.ne_none_iff_isSome.mpr this.2
  · intro s hs
    have := List.mem_filter.mp (mem_filter_of_mem_top hs)
    exact Option.ne_none_iff_isSome.mpr this.2

/-- Witness for C8: `prev = 0, last = 500` gives the `None` marker (and it
is absent from both rankings); `prev = 1000, last = 1200` gives a rounded
percentage. -/
theorem c8_category_shift_witness :
    (shiftFor [("food", 500)] [] "food").change_pct = none ∧
    (shiftFor [("rent", 1200)] [("rent", 1000)] "rent").change_pct =
      some (pyRound1 (((getAmt [("rent", 1200)] "rent" : ℚ) -
        (getAmt [("rent", 1000)] "rent" : ℚ)) / (getAmt [("rent", 1000)] "rent" : ℚ) * 100)) := by
  constructor
  · exact (c8_category_shift [("food", 500)] [] "food").2.1 (by decide) (by decide)
  · exact (c8_category_shift [("rent", 1200)] [("rent", 1000)] "rent").1 (by decide)

example : sanitizeTicker "$aapl" = "AAPL" := by decide
example : sanitizeTicker "'MSFT'" = "MSFT" := by decide
example : sanitizeTicker "goo gl" = "GOOGL" := by decide
example : isValidTicker "AAPL" = true := by decide
example : isValidTicker "$AAPL" = false := by decide

lemma tickerChar_toUpper {c : Char} (h : isTickerChar c = true) : c.toUpper = c := by
  unfold Char.toUpper
  rw [if_neg]
  simp only [isTickerChar, Bool.or_eq_true, Bool.and_eq_true, decide_eq_true_eq] at h
  intro hc
  rcases hc with ⟨h1, h2⟩
  rcases h with (((⟨a1, a2⟩ | ⟨a1, a2⟩) | a) | a) <;> omega

lemma tickerChar_not_quote {c : Char} (h : isTickerChar c = true) : isQuoteChar c = false := by
  cases hq : isQuoteChar c with
  | false => rfl
  | true =>
    exfalso
    simp only [isQuoteChar, Bool.or_eq_true, decide_eq_true_eq] at hq
    simp only [isTickerChar, Bool.or_eq_true, Bool.and_eq_true, decide_eq_true_eq] at h
    omega

lemma tickerChar_not_ws {c : Char} (h : isTickerChar c = true) : c.isWhitespace = false := by
  cases hw : c.isWhitespace with
  | false => rfl
  | true =>
    exfalso
    simp only [Char.isWhitespace, Bool.or_eq_true, decide_eq_true_eq] at hw
    rcases hw with ((rfl | rfl) | rfl) | rfl <;> exact absurd h (by decide)

lemma tickerChar_ne_dollar {c : Char} (h : isTickerChar c = true) : c ≠ '$' := by
  intro hc
  subst hc
  exact absurd h (by decide)

lemma dropWhile_eq_self_of_false {p : Char → Bool} {l : List Char}
    (h : ∀ c ∈ l, p c = false) : l.dropWhile p = l := by
  cases l with
  | nil => rfl
  | cons a t => simp [List.dropWhile_cons, h a (List.mem_cons_self a t)]

lemma pyStrip_eq_self_of_false {p : Char → Bool} {l : List Char}
    (h : ∀ c ∈ l, p c = false) : pyStrip p l = l := by
  unfold pyStrip
  rw [dropWhile_eq_self_of_false h,
    dropWhile_eq_self_of_false (fun c hc => h c (List.mem_reverse.mp hc)),
    List.reverse_reverse]

lemma dropDollar_eq_self {r : List Char} (hr : ∀ c ∈ r, isTickerChar c = true) :
    dropDollar r = r := by
  cases r with
  | nil => rfl
  | cons a t =>
    have ha := tickerChar_ne_dollar (hr a (List.mem_cons_self a t))
    unfold dropDollar
    split
    · rename_i rest heq
      exact absurd (List.head_eq_of_cons_eq heq) ha
    · rfl

lemma sanitizeTickerL_chars (l : List Char) :
    ∀ c ∈ sanitizeTickerL l, isTickerChar c = true := by
  intro c hc
  unfold sanitizeTickerL at hc
  exact (List.mem_filter.mp hc).2

lemma sanitizeTickerL_fixed {r : List Char} (hr : ∀ c ∈ r, isTickerChar c = true) :
    sanitizeTickerL r = r := by
  unfold sanitizeTickerL
  dsimp only
  rw [pyStrip_eq_self_of_false (fun c hc => tickerChar_not_ws (hr c hc))]
  have hmap : List.map Char.toUpper r = r := by
    have h0 := List.map_congr_left (fun c hc => tickerChar_toUpper (hr c hc))
    simpa using h0
  rw [hmap]
  rw [pyStrip_eq_self_of_false (fun c hc => tickerChar_not_quote (hr c hc))]
  rw [dropDollar_eq_self hr]
  exact List.filter_eq_self.mpr hr

/-- **C9.** `sanitize_ticker` is total and idempotent; the three concrete
inputs sanitize as the spec states; and a sanitized result passes
`is_valid_ticker` exactly when its length is between 1 and 10 (the
character-set part of the regex holds automatically after sanitization). -/
theorem c9_sanitize_ticker :
    (∀ t : String, sanitizeTicker (sanitizeTicker t) = sanitizeTicker t) ∧
    sanitizeTicker "$aapl" = "AAPL" ∧
    sanitizeTicker "'MSFT'" = "MSFT" ∧
    sanitizeTicker "goo gl" = "GOOGL" ∧
    (∀ t : String, isValidTicker (sanitizeTicker t) = true ↔
      1 ≤ (sanitizeTicker t).toList.length ∧ (sanitizeTicker t).toList.length ≤ 10) := by
  have hchars : ∀ t : String, ∀ c ∈ (sanitizeTicker t).toList, isTickerChar c = true := by
    intro t c hc
    unfold sanitizeTicker at hc
    by_cases ht : t = ""
    · rw [if_pos ht] at hc
      simp at hc
    · rw [if_neg ht] at hc
      exact sanitizeTickerL_chars t.toList c hc
  refine ⟨?_, by decide, by decide, by decide, ?_⟩
  · intro t
    by_cases ht : t = ""
    · subst ht
      decide
    · have h1 : sanitizeTicker t = String.mk (sanitizeTickerL t.toList) := by
        unfold sanitizeTicker
        rw [if_neg ht]
      by_cases hs : String.mk (sanitizeTickerL t.toList) = ""
      · rw [h1, hs]
        decide
      · rw [h1]
        unfold sanitizeTicker
        rw [if_neg hs]
        have h2 : (String.mk (sanitizeTickerL t.toList)).toList = sanitizeTickerL t.toList := rfl
        rw [h2, sanitizeTickerL_fixed (sanitizeTickerL_chars t.toList)]
  · intro t
    unfold isValidTicker
    constructor
    · intro h
      simp only [Bool.and_eq_true, decide_eq_true_eq] at h
      exact ⟨h.1.1, h.1.2⟩
    · intro ⟨h1, h2⟩
      simp only [Bool.and_eq_true, decide_eq_true_eq]
      exact ⟨⟨h1, h2⟩, List.all_eq_true.mpr fun c hc => hchars t c hc⟩

lemma setKey_valid {out : List (String × ℚ)} {k : String} {v : ℚ}
    (hout : ∀ kq ∈ out, isValidTicker kq.1 = true) (hk : isValidTicker k = true) :
    ∀ kq ∈ setKey out k v, isValidTicker kq.1 = true := by
  intro kq hkq
  unfold setKey at hkq
  split at hkq
  · rcases List.mem_map.mp hkq with ⟨kv, hmem, heq⟩
    by_cases hc : kv.1 = k
    · rw [if_pos hc] at heq
      subst heq
      exact hk
    · rw [if_neg hc] at heq
      subst heq
      exact hout kv hmem
  · rcases List.mem_append.mp hkq with h | h
    · exact hout _ h
    · rcases List.mem_singleton.mp h with rfl
      exact hk

lemma foldl_valid {α : Type} (f : List (String × ℚ) → α → List (String × ℚ))
    (hf : ∀ out a, (∀ kq ∈ out, isValidTicker kq.1 = true) →
      ∀ kq ∈ f out a, isValidTicker kq.1 = true) :
    ∀ (l : List α) (out), (∀ kq ∈ out, isValidTicker kq.1 = true) →
      ∀ kq ∈ l.foldl f out, isValidTicker kq.1 = true := by
  intro l
  induction l with
  | nil => intro out h; simpa using h
  | cons a t ih =>
    intro out h
    simp only [List.foldl_cons]
    exact ih _ (hf out a h)

example : normalizePortfolio (.pyStr "AAPL:2 MSFT" none) = [("AAPL", 2), ("MSFT", 1)] := by decide

/-- **C4 counterexample.** The JSON-string path does NOT sanitize: on the
string `LBRACE"$aapl": 2 RBRACE` (whose `json.loads` result is the dict
`$aapl ↦ 2`), `_normalize` returns the key `$AAPL` — merely upper-cased,
failing `is_valid_ticker` — so not every normalized ticker has passed the
§4.2 sanitization/validity rules. -/
theorem c4_counterexample :
    normalizePortfolio (.pyStr "\x7b\"$aapl\": 2\x7d" (some [("$aapl", some 2)])) =
      [("$AAPL", 2)] ∧
    isValidTicker "$AAPL" = false := by
  constructor
  · decide
  · decide

/-- **C4 (amended).** The dict path and the free-text token path sanitize
every ticker and silently drop invalid ones, so every ticker they emit
passes `is_valid_ticker`; the JSON-encoded-string path, however, only
upper-cases keys without sanitization or validation. -/
theorem c4_normalize_amended :
    (∀ entries : List (String × Option ℚ),
      ∀ kq ∈ normalizePortfolio (.pyDict entries), isValidTicker kq.1 = true) ∧
    (∀ raw : String,
      ∀ kq ∈ normalizePortfolio (.pyStr raw none), isValidTicker kq.1 = true) := by
  constructor
  · intro entries kq hkq
    unfold normalizePortfolio dictPath at hkq
    refine foldl_valid _ ?_ entries [] (by simp) kq hkq
    intro out a h
    dsimp only
    split
    · rename_i hv
      exact setKey_valid h hv
    · exact h
  · intro raw kq hkq
    unfold normalizePortfolio tokenPath at hkq
    refine foldl_valid _ ?_ _ [] (by simp) kq hkq
    intro out p h
    unfold tokenStep
    split
    · dsimp only
      split
      · rename_i hv
        exact setKey_valid h hv
      · exact h
    · dsimp only
      split
      · rename_i hv
        exact setKey_valid h hv
      · exact h

/-- Witness for C4 (amended): the dict entry `$aapl ↦ 2` is normalized to
the sanitized, valid ticker `AAPL`; the token `aapl:2` likewise. -/
theorem c4_normalize_amended_witness :
    isValidTicker ("AAPL", (2 : ℚ)).1 = true ∧
    isValidTicker ("MSFT", (1 : ℚ)).1 = true :=
  ⟨c4_normalize_amended.1 [("$aapl", some 2)] ("AAPL", 2) (by decide),
   c4_normalize_amended.2 "aapl:2 msft" ("MSFT", 1) (by decide)⟩

lemma joinLines_cons (x : String) (xs : List String) :
    ∃ r : String, joinLines (x :: xs) = x ++ r := by
  cases xs with
  | nil => exact ⟨"", by simp [joinLines]⟩
  | cons y ys =>
    refine ⟨"\n" ++ joinLines (y :: ys), ?_⟩
    show x ++ "\n" ++ joinLines (y :: ys) = x ++ ("\n" ++ joinLines (y :: ys))
    rw [String.append_assoc]

/-- **C5.** A profile missing (falsy) any of the four fields makes
`investment_advice` return the clarification string — never the
market-data/LLM path — and when `risk_tolerance` is the missing field the
message contains the fixed risk-tolerance question right after the
header. -/
theorem c5_clarification_gate (portfolio : PortfolioInput) (p : UserProfile)
    (h : pyFalsy p.risk_tolerance = true ∨ pyFalsy p.time_horizon = true ∨
      pyFalsy p.investment_amount = true ∨ pyFalsy p.investment_goals = true) :
    (∃ msg, investmentAdvice portfolio p = .clarify msg) ∧
    (∀ md, investmentAdvice portfolio p ≠ .advise md) ∧
    (pyFalsy p.risk_tolerance = true →
      ∃ rest, investmentAdvice portfolio p = .clarify
        ("To provide accurate advice, I need a bit more information:\n- " ++
          riskQuestion ++ rest)) := by
  have hqs : getClarificationQuestions p ≠ [] := by
    unfold getClarificationQuestions
    intro heq
    simp only [List.append_eq_nil] at heq
    rcases h with h | h | h | h <;> simp [h] at heq
  have hadv : investmentAdvice portfolio p = .clarify
      ("To provide accurate advice, I need a bit more information:\n" ++
        joinLines ((getClarificationQuestions p).map (fun q => "- " ++ q))) := by
    unfold investmentAdvice
    rw [if_neg hqs]
  refine ⟨⟨_, hadv⟩, ?_, ?_⟩
  · intro md hmd
    rw [hadv] at hmd
    exact AdviceResult.noConfusion hmd
  · intro hr
    have hhead : getClarificationQuestions p = riskQuestion ::
        ((if pyFalsy p.time_horizon then ["What is your investment time horizon?"] else []) ++
        (if pyFalsy p.investment_amount then
          ["How much amount can you invest monthly or as a lump sum?"] else []) ++
        (if pyFalsy p.investment_goals then
          ["Please describe your investment goals (e.g., target amount and timeframe)"] else [])) := by
      unfold getClarificationQuestions
      rw [if_pos hr]
      simp [List.append_assoc]
    obtain ⟨r, hjoin⟩ := joinLines_cons ("- " ++ riskQuestion)
      (((if pyFalsy p.time_horizon then ["What is your investment time horizon?"] else []) ++
        (if pyFalsy p.investment_amount then
          ["How much amount can you invest monthly or as a lump sum?"] else []) ++
        (if pyFalsy p.investment_goals then
          ["Please describe your investment goals (e.g., target amount and timeframe)"] else [])).map
        (fun q => "- " ++ q))
    refine ⟨r, ?_⟩
    rw [hadv, hhead]
    simp only [List.map_cons, hjoin]
    congr 1

/-- Witness for C5 at a profile missing only `risk_tolerance`. -/
theorem c5_clarification_gate_witness :
    ∃ msg, investmentAdvice .pyNone
      ⟨none, some "5 years", some "10000", some "retirement"⟩ = .clarify msg :=
  (c5_clarification_gate .pyNone ⟨none, some "5 years", some "10000", some "retirement"⟩
    (Or.inl (by decide))).1

end FinAssist
